import Mathlib

/-!
# Verification of the CanvasUIMark input-routing and focus core

This file is a shallow embedding, in Lean 4, of the input-routing and
focus/state-machine layer of `canvasUImark.js`:

* the `CanvasUIMark` coordinator (control registry, focus index, modal
  stack, dispatch of key / click / gamepad-button events),
* the `Modal` overlay (selected button, keyboard and click handling,
  escape semantics, closing),
* the `Slider` control (directional adjust and track-click value update),
* the `TextInput` control (cursor movement and editing).

JavaScript numbers are modelled by `ℚ` (the event coordinates, control
geometry and slider values are exact rationals here; the source performs
the same field operations in binary floating point).  JavaScript's `%`
operator on integers is truncated remainder, modelled by `Int.tmod`.

Controls are observed by the coordinator only through `containsPoint` and
the presence of optional handlers (`if (control.handleKeyDown) ...`), so
a control is embedded as its hit-test data (rectangle, plus the `Panel`
override that always fails the hit test) together with capability flags,
and the dispatch functions return a trace of `Invocation` values
recording exactly which handler / callback the coordinator invoked.
User callbacks are opaque: they are identified by numeric ids and their
invocation is recorded in the trace.
-/

namespace CanvasUIMark

/-- A keyboard event as the library reads it: `e.key` plus the modifier
flags consulted by the dispatch code. -/
structure KeyEvent where
  key : String
  shiftKey : Bool
  ctrlKey : Bool
  metaKey : Bool
deriving DecidableEq

/-- One action button of a modal: a label and an optional callback
(JS code guards every invocation with `if (... .callback)`).
Callbacks are opaque and identified by a numeric id. -/
structure ModalButton where
  label : String
  callback : Option Nat
deriving DecidableEq

/-- State of a `Modal` dialog: identity, content, the selected-button
index, and the geometry computed at construction that `handleClick`
hit-tests against. -/
structure Modal where
  id : Nat
  title : String
  message : String
  buttons : List ModalButton
  selectedButton : Nat
  x : ℚ
  y : ℚ
  width : ℚ
  height : ℚ
  buttonHeight : ℚ
  buttonWidth : ℚ
  buttonSpacing : ℚ
deriving DecidableEq

/-- Result of running one modal input handler: the (possibly mutated)
modal, whether `close()` was called, and the ids of the user callbacks
that were invoked, in order. -/
structure ModalResult where
  modal : Modal
  closed : Bool
  invoked : List Nat
deriving DecidableEq

/-- The predicate of `Modal.handleKeyDown`'s Escape branch
(`b.label.toLowerCase() === 'exit' || ... 'close' || ... 'cancel'`). -/
def isCancelLike (b : ModalButton) : Bool :=
  b.label.toLower == "exit" || b.label.toLower == "close" || b.label.toLower == "cancel"

/-- `Modal.handleKeyDown` from the source: ArrowLeft/ArrowRight move
`selectedButton` with wraparound; Enter/Space invoke the selected
button's callback (when present) and close; Escape invokes the first
cancel-equivalent button's callback (when present) and closes. -/
def Modal.handleKeyDown (m : Modal) (e : KeyEvent) : ModalResult :=
  if e.key == "ArrowLeft" then
    { modal := { m with selectedButton := (m.selectedButton + m.buttons.length - 1) % m.buttons.length },
      closed := false, invoked := [] }
  else if e.key == "ArrowRight" then
    { modal := { m with selectedButton := (m.selectedButton + 1) % m.buttons.length },
      closed := false, invoked := [] }
  else if e.key == "Enter" || e.key == " " then
    { modal := m, closed := true,
      invoked := match m.buttons[m.selectedButton]? with
        | some b => b.callback.toList
        | none => [] }
  else if e.key == "Escape" then
    { modal := m, closed := true,
      invoked := match m.buttons.find? isCancelLike with
        | some b => b.callback.toList
        | none => [] }
  else
    { modal := m, closed := false, invoked := [] }

/-- The button-scan loop of `Modal.handleClick`: walk the button row,
return the first button whose rectangle contains the click.  `i` is the
index of the head of `bs` in the original list. -/
def modalButtonScan (bs : List ModalButton) (startX buttonsY bw bh spacing px py : ℚ)
    (i : Nat) : Option ModalButton :=
  match bs with
  | [] => none
  | b :: rest =>
    let buttonX := startX + i * (bw + spacing)
    if buttonX ≤ px ∧ px ≤ buttonX + bw ∧ buttonsY ≤ py ∧ py ≤ buttonsY + bh then
      some b
    else
      modalButtonScan rest startX buttonsY bw bh spacing px py (i + 1)

/-- `Modal.handleClick` from the source: hit-test the row of action
buttons (evenly spaced, centered near the bottom edge); a hit invokes
that button's callback (when present) and closes; a miss does nothing. -/
def Modal.handleClick (m : Modal) (px py : ℚ) : ModalResult :=
  let buttonsY := m.y + m.height - m.buttonHeight - 20
  let totalButtonWidth := (m.buttons.length : ℚ) * m.buttonWidth +
    ((m.buttons.length : ℚ) - 1) * m.buttonSpacing
  let startX := m.x + (m.width - totalButtonWidth) / 2
  match modalButtonScan m.buttons startX buttonsY m.buttonWidth m.buttonHeight
      m.buttonSpacing px py 0 with
  | some b => { modal := m, closed := true, invoked := b.callback.toList }
  | none => { modal := m, closed := false, invoked := [] }

/-- `Modal.handleGamepadButton` from the source: button 0 invokes the
selected button's callback and closes; button 1 behaves like Escape;
buttons 14/15 move the selection with wraparound. -/
def Modal.handleGamepadButton (m : Modal) (buttonIndex : Nat) : ModalResult :=
  if buttonIndex == 0 then
    { modal := m, closed := true,
      invoked := match m.buttons[m.selectedButton]? with
        | some b => b.callback.toList
        | none => [] }
  else if buttonIndex == 1 then
    { modal := m, closed := true,
      invoked := match m.buttons.find? isCancelLike with
        | some b => b.callback.toList
        | none => [] }
  else if buttonIndex == 14 then
    { modal := { m with selectedButton := (m.selectedButton + m.buttons.length - 1) % m.buttons.length },
      closed := false, invoked := [] }
  else if buttonIndex == 15 then
    { modal := { m with selectedButton := (m.selectedButton + 1) % m.buttons.length },
      closed := false, invoked := [] }
  else
    { modal := m, closed := false, invoked := [] }

/-- A registered control, as the coordinator observes it: identity,
the rectangle used by `Control.containsPoint`, whether it is a `Panel`
(whose `containsPoint` override always returns `false`), and which of
the optional handlers the control defines (the source checks
`if (control.handleKeyDown)`, `if (control.handleClick)`, etc.). -/
structure Control where
  id : Nat
  x : ℚ
  y : ℚ
  width : ℚ
  height : ℚ
  isPanel : Bool
  hasKeyDown : Bool
  hasClick : Bool
  hasActivate : Bool
  hasAxis : Bool
  hasLeft : Bool
  hasRight : Bool
deriving DecidableEq

/-- `Control.containsPoint` from the source (axis-aligned rectangle
containment), with the `Panel` override that always returns false. -/
def Control.containsPoint (c : Control) (px py : ℚ) : Bool :=
  if c.isPanel then false
  else
    decide (c.x ≤ px) && decide (px ≤ c.x + c.width) &&
    decide (c.y ≤ py) && decide (py ≤ c.y + c.height)

/-- Coordinator state: the ordered control list, the focus index
(`-1` meaning no focus), the modal stack (last element = topmost),
the optional global escape callback, and the ambient held-key record
(`this.keys[e.key] = true`, modelled as the list of keys set). -/
structure UIState where
  controls : List Control
  focusIndex : Int
  modals : List Modal
  onEscape : Option Nat
  keys : List String
deriving DecidableEq

/-- One observable dispatch effect: which handler or user callback the
coordinator (or the modal it routed to) invoked. -/
inductive Invocation where
  | modalKey : Invocation
  | modalClick : Invocation
  | modalButton (buttonIndex : Nat) : Invocation
  | actionCb (id : Nat) : Invocation
  | controlKey (index : Nat) : Invocation
  | controlClick (index : Nat) : Invocation
  | controlActivate (index : Nat) : Invocation
  | controlAxis (index : Nat) (dir : Int) : Invocation
  | controlLeft (index : Nat) : Invocation
  | controlRight (index : Nat) : Invocation
  | escapeCb (id : Nat) : Invocation
deriving DecidableEq

/-- Invocations that stay within the modal layer: the topmost modal's
own handlers and the callbacks of its action buttons. -/
def Invocation.viaModal : Invocation → Bool
  | .modalKey => true
  | .modalClick => true
  | .modalButton _ => true
  | .actionCb _ => true
  | _ => false

/-- Replace the topmost modal by the result of its handler: the modal
object is mutated in place, and `close()` removes it (by identity, via
`closeModal`'s `indexOf`; each modal object is pushed exactly once, so
this is removal of the last element). -/
def UIState.applyModalResult (s : UIState) (r : ModalResult) : UIState :=
  { s with modals := s.modals.dropLast ++ (if r.closed then [] else [r.modal]) }

/-- `focusNext` from the source:
`if (length === 0) return; focusIndex = (focusIndex + 1) % length`.
JavaScript `%` is truncated remainder (`Int.tmod`). -/
def focusNext (s : UIState) : UIState :=
  if s.controls.length = 0 then s
  else { s with focusIndex := Int.tmod (s.focusIndex + 1) s.controls.length }

/-- `focusPrevious` from the source:
`focusIndex = (focusIndex - 1 + length) % length`. -/
def focusPrevious (s : UIState) : UIState :=
  if s.controls.length = 0 then s
  else { s with focusIndex := Int.tmod (s.focusIndex - 1 + s.controls.length) s.controls.length }

/-- `addControl` from the source: append the control; if
`focusIndex === -1 && controls.length === 1` (checked after the push),
set the focus index to 0.  (The `control.manager = this` back-reference
is not part of the routing state.) -/
def addControl (s : UIState) (c : Control) : UIState :=
  let controls := s.controls ++ [c]
  { s with
    controls := controls,
    focusIndex := if s.focusIndex = -1 ∧ controls.length = 1 then 0 else s.focusIndex }

/-- `removeControl` from the source: find the control (by identity,
modelled by its id), splice it out, then clamp the focus index to
`length - 1` when it now exceeds the end (which yields `-1` when the
list became empty).  An absent control is a no-op. -/
def removeControl (s : UIState) (cid : Nat) : UIState :=
  match s.controls.findIdx? (fun c => c.id == cid) with
  | some index =>
    let controls := s.controls.eraseIdx index
    { s with
      controls := controls,
      focusIndex :=
        if (controls.length : Int) ≤ s.focusIndex then (controls.length : Int) - 1
        else s.focusIndex }
  | none => s

/-- `closeModal` from the source: `indexOf` then `splice` if found —
remove the first modal with the given identity, no-op otherwise. -/
def closeModal (s : UIState) (mid : Nat) : UIState :=
  { s with modals := s.modals.eraseP (fun m => m.id == mid) }

/-- The focused control, guarded exactly as the source guards it:
`if (this.focusIndex >= 0 && this.focusIndex < this.controls.length)`. -/
def UIState.focusedControl (s : UIState) : Option Control :=
  if 0 ≤ s.focusIndex ∧ s.focusIndex < (s.controls.length : Int) then
    s.controls[s.focusIndex.toNat]?
  else none

/-- `handleKeyDown` from the source.  Records the held key; Escape goes
to the topmost modal if one exists, else to the global escape callback;
any other key goes to the topmost modal if one exists; else Tab moves
focus (Shift reverses); else the key goes to the focused control's
optional key handler. -/
def handleKeyDown (s : UIState) (e : KeyEvent) : UIState × List Invocation :=
  let s := { s with keys := e.key :: s.keys }
  if e.key == "Escape" then
    match s.modals.getLast? with
    | some top =>
      let r := top.handleKeyDown e
      (s.applyModalResult r, Invocation.modalKey :: r.invoked.map Invocation.actionCb)
    | none =>
      match s.onEscape with
      | some cb => (s, [Invocation.escapeCb cb])
      | none => (s, [])
  else
    match s.modals.getLast? with
    | some top =>
      let r := top.handleKeyDown e
      (s.applyModalResult r, Invocation.modalKey :: r.invoked.map Invocation.actionCb)
    | none =>
      if e.key == "Tab" then
        (if e.shiftKey then focusPrevious s else focusNext s, [])
      else
        match s.focusedControl with
        | some c =>
          if c.hasKeyDown then (s, [Invocation.controlKey s.focusIndex.toNat])
          else (s, [])
        | none => (s, [])

/-- The control hit-test loop of `handleClick`
(`for (let i = controls.length - 1; i >= 0; i--) ... break`), as a
recursion on the loop counter: called with `n = controls.length`, it
scans indices `n-1, n-2, ..., 0` and returns the first (i.e. highest)
index whose control contains the point, with that control. -/
def clickScan (cs : List Control) (px py : ℚ) : Nat → Option (Nat × Control)
  | 0 => none
  | k + 1 =>
    match cs[k]? with
    | some c =>
      if c.containsPoint px py then some (k, c)
      else clickScan cs px py k
    | none => clickScan cs px py k

/-- `handleClick` from the source: a click goes to the topmost modal if
one exists; else controls are hit-tested from last-added to first-added,
the first hit receives focus and (when it defines one) its click
handler, and the scan stops. -/
def handleClick (s : UIState) (px py : ℚ) : UIState × List Invocation :=
  match s.modals.getLast? with
  | some top =>
    let r := top.handleClick px py
    (s.applyModalResult r, Invocation.modalClick :: r.invoked.map Invocation.actionCb)
  | none =>
    match clickScan s.controls px py s.controls.length with
    | some (i, c) =>
      ({ s with focusIndex := (i : Int) },
       if c.hasClick then [Invocation.controlClick i] else [])
    | none => (s, [])

/-- `handleGamepadButton` from the source: a press goes to the topmost
modal if one exists; else button 0 activates the focused control,
button 1 fires the global escape callback, buttons 12/13 move focus,
buttons 14/15 deliver a directional adjust to the focused control
(preferring `handleGamepadAxis`, falling back to the discrete
left/right handlers). -/
def handleGamepadButton (s : UIState) (buttonIndex : Nat) : UIState × List Invocation :=
  match s.modals.getLast? with
  | some top =>
    let r := top.handleGamepadButton buttonIndex
    (s.applyModalResult r,
     Invocation.modalButton buttonIndex :: r.invoked.map Invocation.actionCb)
  | none =>
    if buttonIndex == 0 then
      match s.focusedControl with
      | some c =>
        if c.hasActivate then (s, [Invocation.controlActivate s.focusIndex.toNat])
        else (s, [])
      | none => (s, [])
    else if buttonIndex == 1 then
      match s.onEscape with
      | some cb => (s, [Invocation.escapeCb cb])
      | none => (s, [])
    else if buttonIndex == 12 then
      (focusPrevious s, [])
    else if buttonIndex == 13 then
      (focusNext s, [])
    else if buttonIndex == 14 then
      match s.focusedControl with
      | some c =>
        if c.hasAxis then (s, [Invocation.controlAxis s.focusIndex.toNat (-1)])
        else if c.hasLeft then (s, [Invocation.controlLeft s.focusIndex.toNat])
        else (s, [])
      | none => (s, [])
    else if buttonIndex == 15 then
      match s.focusedControl with
      | some c =>
        if c.hasAxis then (s, [Invocation.controlAxis s.focusIndex.toNat 1])
        else if c.hasRight then (s, [Invocation.controlRight s.focusIndex.toNat])
        else (s, [])
      | none => (s, [])
    else
      (s, [])

/-- State of a `Slider` control: the rectangle, the `padding` style
option consulted by `updateValueFromX`, and the value model
`min`/`max`/`value`/`step`. -/
structure Slider where
  x : ℚ
  y : ℚ
  width : ℚ
  height : ℚ
  padding : ℚ
  min : ℚ
  max : ℚ
  value : ℚ
  step : ℚ
deriving DecidableEq

/-- `Slider.handleKeyDown` from the source: ArrowLeft sets
`value = Math.max(min, value - step)`, ArrowRight sets
`value = Math.min(max, value + step)`; other keys do nothing. -/
def Slider.handleKeyDown (s : Slider) (key : String) : Slider :=
  if key == "ArrowLeft" then { s with value := Max.max s.min (s.value - s.step) }
  else if key == "ArrowRight" then { s with value := Min.min s.max (s.value + s.step) }
  else s

/-- `Slider.handleGamepadAxis` from the source: a negative direction
decrements by `step` (clamped below at `min`), otherwise increments by
`step` (clamped above at `max`). -/
def Slider.handleGamepadAxis (s : Slider) (direction : Int) : Slider :=
  if direction < 0 then { s with value := Max.max s.min (s.value - s.step) }
  else { s with value := Min.min s.max (s.value + s.step) }

/-- A directional-adjust input to a slider: a keyboard key or a gamepad
axis direction. -/
inductive SliderInput where
  | keyInput (key : String) : SliderInput
  | axisInput (direction : Int) : SliderInput
deriving DecidableEq

/-- Apply one directional-adjust input through the corresponding
source handler. -/
def Slider.applyInput (s : Slider) : SliderInput → Slider
  | .keyInput k => s.handleKeyDown k
  | .axisInput d => s.handleGamepadAxis d

/-- `Slider.updateValueFromX` from the source: the click's position
along the padded track is clamped to `[0,1]`, mapped affinely onto
`[min,max]`, rounded to the nearest multiple of `step`
(`Math.round(newValue / step) * step`; `Math.round` rounds half toward
positive infinity, which is Mathlib's `round`), clamped to
`[min,max]`, and stored when it differs from the current value. -/
def Slider.updateValueFromX (s : Slider) (x : ℚ) : Slider :=
  let sliderX := s.x + s.padding
  let sliderWidth := s.width - s.padding * 2
  let percent := Max.max 0 (Min.min 1 ((x - sliderX) / sliderWidth))
  let newValue := s.min + percent * (s.max - s.min)
  let newValue := (round (newValue / s.step) : ℚ) * s.step
  let newValue := Max.max s.min (Min.min s.max newValue)
  if newValue ≠ s.value then { s with value := newValue } else s

/-- Modelled from the spec (for comparison with the source): the spec's
formula for a track click, "`round((raw - min)/step)*step + min`, then
clamp", with `raw = min + percent * (max - min)` and `percent` the
click's position along the track clamped to `[0,1]`. -/
def sliderClickSpecValue (s : Slider) (x : ℚ) : ℚ :=
  let sliderX := s.x + s.padding
  let sliderWidth := s.width - s.padding * 2
  let percent := Max.max 0 (Min.min 1 ((x - sliderX) / sliderWidth))
  let raw := s.min + percent * (s.max - s.min)
  Max.max s.min (Min.min s.max ((round ((raw - s.min) / s.step) : ℚ) * s.step + s.min))

/-- The amended formula for a track click, following the source: the
raw value is rounded to the nearest absolute multiple of `step` (not
offset by `min`), then clamped to `[min, max]`. -/
def sliderClickAmendedValue (s : Slider) (x : ℚ) : ℚ :=
  let sliderX := s.x + s.padding
  let sliderWidth := s.width - s.padding * 2
  let percent := Max.max 0 (Min.min 1 ((x - sliderX) / sliderWidth))
  let raw := s.min + percent * (s.max - s.min)
  Max.max s.min (Min.min s.max ((round (raw / s.step) : ℚ) * s.step))

/-- `v` is an integer multiple of `step` ("(value - min) mod step == 0"
read exactly over the rationals). -/
def stepAligned (v step : ℚ) : Prop :=
  ∃ k : ℤ, v = k * step

/-- The slider value invariant of the claim: in range and step-aligned
relative to `min`. -/
def SliderInv (s : Slider) : Prop :=
  s.min ≤ s.value ∧ s.value ≤ s.max ∧ stepAligned (s.value - s.min) s.step

/-- State of a `TextInput` control: geometry, placeholder, the value
(a sequence of UTF-16-style characters), the cursor position, and the
blink state.  The cursor position is a JavaScript number, modelled as
an integer. -/
structure TextInput where
  x : ℚ
  y : ℚ
  width : ℚ
  height : ℚ
  placeholder : String
  value : List Char
  cursorPos : Int
  cursorVisible : Bool
  cursorBlinkTime : ℚ
deriving DecidableEq

/-- The `TextInput` constructor: empty value, cursor at 0, cursor
visible, blink timer at 0. -/
def TextInput.make (x y width height : ℚ) (placeholder : String) : TextInput :=
  { x := x, y := y, width := width, height := height, placeholder := placeholder,
    value := [], cursorPos := 0, cursorVisible := true, cursorBlinkTime := 0 }

/-- `TextInput.handleKeyDown` from the source: Backspace deletes before
the cursor (when `cursorPos > 0`), Delete deletes at the cursor (when
`cursorPos < value.length`), ArrowLeft/ArrowRight move the cursor
clamped to `[0, value.length]`, Home/End jump, and a single-character
key without Ctrl/Meta is inserted at the cursor; every key press resets
the cursor blink to visible. -/
def TextInput.handleKeyDown (t : TextInput) (e : KeyEvent) : TextInput :=
  let t :=
    if e.key == "Backspace" then
      if 0 < t.cursorPos then
        { t with
          value := t.value.take (t.cursorPos - 1).toNat ++ t.value.drop t.cursorPos.toNat,
          cursorPos := t.cursorPos - 1 }
      else t
    else if e.key == "Delete" then
      if t.cursorPos < (t.value.length : Int) then
        { t with
          value := t.value.take t.cursorPos.toNat ++ t.value.drop (t.cursorPos + 1).toNat }
      else t
    else if e.key == "ArrowLeft" then
      { t with cursorPos := Max.max 0 (t.cursorPos - 1) }
    else if e.key == "ArrowRight" then
      { t with cursorPos := Min.min (t.value.length : Int) (t.cursorPos + 1) }
    else if e.key == "Home" then
      { t with cursorPos := 0 }
    else if e.key == "End" then
      { t with cursorPos := (t.value.length : Int) }
    else if e.key.length == 1 && !e.ctrlKey && !e.metaKey then
      { t with
        value := t.value.take t.cursorPos.toNat ++ e.key.data ++ t.value.drop t.cursorPos.toNat,
        cursorPos := t.cursorPos + 1 }
    else t
  { t with cursorVisible := true, cursorBlinkTime := 0 }

/-- `TextInput.handleClick` from the source: place the cursor at the
end of the value. -/
def TextInput.handleClick (t : TextInput) (px py : ℚ) : TextInput :=
  { t with cursorPos := (t.value.length : Int) }

/-- The cursor-position invariant of the claim:
`0 <= cursorPos <= value.length`. -/
def TextInputInv (t : TextInput) : Prop :=
  0 ≤ t.cursorPos ∧ t.cursorPos ≤ (t.value.length : Int)

/-- A sample interactive control occupying `[0,10] × [0,10]`, defining
every optional handler. -/
def sampleButton (i : Nat) : Control :=
  { id := i, x := 0, y := 0, width := 10, height := 10, isPanel := false,
    hasKeyDown := true, hasClick := true, hasActivate := true,
    hasAxis := false, hasLeft := false, hasRight := false }

/-- A sample coordinator state with three controls and focus on index 1. -/
def threeControlState : UIState :=
  { controls := [sampleButton 0, sampleButton 1, sampleButton 2],
    focusIndex := 1, modals := [], onEscape := some 9, keys := [] }

/-- A sample coordinator state with no controls. -/
def emptyState : UIState :=
  { controls := [], focusIndex := -1, modals := [], onEscape := some 9, keys := [] }

/-- A sample modal with a single OK action. -/
def sampleModal : Modal :=
  { id := 5, title := "Paused", message := "Game paused",
    buttons := [{ label := "OK", callback := some 1 }], selectedButton := 0,
    x := 340, y := 260, width := 600, height := 200,
    buttonHeight := 50, buttonWidth := 150, buttonSpacing := 20 }

/-- A second sample modal with a distinct identity. -/
def sampleModal2 : Modal := { sampleModal with id := 6 }

/-- The three-control state with one modal on the stack. -/
def modalState : UIState := { threeControlState with modals := [sampleModal] }

/-- The three-control state with two modals on the stack. -/
def twoModalState : UIState := { threeControlState with modals := [sampleModal, sampleModal2] }

/-- A state with two controls covering the same rectangle (the
later-added control occludes the earlier one). -/
def overlapState : UIState :=
  { controls := [sampleButton 0, sampleButton 1],
    focusIndex := 0, modals := [], onEscape := none, keys := [] }

/-- The Escape key event. -/
def escapeEvent : KeyEvent := { key := "Escape", shiftKey := false, ctrlKey := false, metaKey := false }

/-- An ordinary printable key event. -/
def plainKeyEvent : KeyEvent := { key := "a", shiftKey := false, ctrlKey := false, metaKey := false }

/-- A slider whose range span 10 is not a multiple of its step 3. -/
def c2Slider : Slider :=
  { x := 0, y := 0, width := 100, height := 40, padding := 10,
    min := 0, max := 10, value := 0, step := 3 }

/-- Four increment inputs through the gamepad axis. -/
def c2Inputs : List SliderInput :=
  [.axisInput 1, .axisInput 1, .axisInput 1, .axisInput 1]

/-- The spec's sample slider: `min=0, max=100, step=5, value=50`. -/
def scenarioSlider : Slider :=
  { x := 0, y := 0, width := 100, height := 40, padding := 10,
    min := 0, max := 100, value := 50, step := 5 }

/-- A slider whose `min` (1) is not a multiple of its step (2), so
quantizing to absolute multiples of `step` differs from quantizing to
`min`-offset multiples. -/
def c3Slider : Slider :=
  { x := 0, y := 0, width := 100, height := 40, padding := 10,
    min := 1, max := 11, value := 5, step := 2 }

/-- A sample text input holding "hi" with the cursor at 1. -/
def sampleTextInput : TextInput :=
  { TextInput.make 0 0 200 30 "name" with value := ['h', 'i'], cursorPos := 1 }

/-- The focus-index invariant of the coordinator: `-1` exactly when the
control sequence is empty, otherwise a valid index into it. -/
def FocusInv (s : UIState) : Prop :=
  (s.controls.length = 0 → s.focusIndex = -1) ∧
  (s.controls.length ≠ 0 → 0 ≤ s.focusIndex ∧ s.focusIndex < (s.controls.length : Int))

theorem focusNext_controls (s : UIState) : (focusNext s).controls = s.controls := by
  unfold focusNext
  split <;> rfl

theorem focusNext_focusIndex (s : UIState) (h : s.controls.length ≠ 0) :
    (focusNext s).focusIndex = Int.tmod (s.focusIndex + 1) s.controls.length := by
  unfold focusNext
  rw [if_neg h]

theorem focusNext_iterate (s : UIState) (h1 : s.controls.length ≠ 0)
    (h2 : 0 ≤ s.focusIndex) (h3 : s.focusIndex < (s.controls.length : Int)) (k : Nat) :
    (focusNext^[k] s).controls = s.controls ∧
      (focusNext^[k] s).focusIndex = (s.focusIndex + k) % (s.controls.length : Int) := by
  induction k with
  | zero =>
    refine ⟨rfl, ?_⟩
    simpa using (Int.emod_eq_of_lt h2 h3).symm
  | succ k ih =>
    obtain ⟨hc, hf⟩ := ih
    have hne : ((s.controls.length : Int)) ≠ 0 := by exact_mod_cast h1
    have hprev : 0 ≤ (focusNext^[k] s).focusIndex := by
      rw [hf]; exact Int.emod_nonneg _ hne
    rw [Function.iterate_succ_apply']
    refine ⟨by rw [focusNext_controls, hc], ?_⟩
    rw [focusNext_focusIndex _ (by rw [hc]; exact h1), hc, hf]
    rw [Int.tmod_eq_emod (by omega) (by positivity), Int.emod_add_emod]
    push_cast
    ring_nf

/-- C6: with an empty control sequence, `focusNext` and `focusPrevious`
leave the coordinator state unchanged (they are total functions, hence
no error), and the focus index stays `-1`. -/
theorem focus_nav_noop_on_empty (s : UIState) (h : s.controls = [])
    (hf : s.focusIndex = -1) :
    focusNext s = s ∧ focusPrevious s = s ∧
    (focusNext s).focusIndex = -1 ∧ (focusPrevious s).focusIndex = -1 := by
  have hlen : s.controls.length = 0 := by simp [h]
  refine ⟨?_, ?_, ?_, ?_⟩ <;> simp [focusNext, focusPrevious, hlen, hf]

theorem focus_nav_noop_on_empty_witness :
    focusNext emptyState = emptyState ∧ focusPrevious emptyState = emptyState ∧
    (focusNext emptyState).focusIndex = -1 ∧ (focusPrevious emptyState).focusIndex = -1 :=
  focus_nav_noop_on_empty emptyState rfl rfl

/-- C5: with a non-empty control sequence of length `n` and a valid
focus index, `n` applications of `focusNext` return the focus index to
its starting value. -/
theorem focusNext_cycle (s : UIState) (h1 : s.controls ≠ [])
    (h2 : 0 ≤ s.focusIndex) (h3 : s.focusIndex < (s.controls.length : Int)) :
    (focusNext^[s.controls.length] s).focusIndex = s.focusIndex := by
  have hlen : s.controls.length ≠ 0 := by simpa using h1
  obtain ⟨-, hf⟩ := focusNext_iterate s hlen h2 h3 s.controls.length
  rw [hf]
  have hrw : s.focusIndex + (s.controls.length : Int) =
      s.focusIndex + (s.controls.length : Int) * 1 := by ring
  rw [hrw, Int.add_mul_emod_self_left]
  exact Int.emod_eq_of_lt h2 h3

theorem clickScan_some {cs : List Control} {px py : ℚ} {n i : Nat} {c : Control}
    (h : clickScan cs px py n = some (i, c)) :
    i < n ∧ cs[i]? = some c ∧ c.containsPoint px py = true := by
  induction n with
  | zero => simp [clickScan] at h
  | succ k ih =>
    rw [clickScan] at h
    cases hk : cs[k]? with
    | none =>
      simp only [hk] at h
      obtain ⟨h1, h2, h3⟩ := ih h
      exact ⟨by omega, h2, h3⟩
    | some ck =>
      simp only [hk] at h
      by_cases hcont : ck.containsPoint px py
      · simp only [if_pos hcont, Option.some.injEq, Prod.mk.injEq] at h
        obtain ⟨rfl, rfl⟩ := h
        exact ⟨Nat.lt_succ_self _, hk, hcont⟩
      · simp only [if_neg hcont] at h
        obtain ⟨h1, h2, h3⟩ := ih h
        exact ⟨by omega, h2, h3⟩

theorem clickScan_finds {cs : List Control} {px py : ℚ} {i : Nat} {c : Control}
    (hi : cs[i]? = some c) (hc : c.containsPoint px py = true)
    (hmax : ∀ j, i < j → ∀ d, cs[j]? = some d → d.containsPoint px py = false) :
    ∀ n, i < n → n ≤ cs.length → clickScan cs px py n = some (i, c) := by
  intro n
  induction n with
  | zero => omega
  | succ k ih =>
    intro h1 h2
    rw [clickScan]
    by_cases hik : i = k
    · subst hik
      simp only [hi, if_pos hc]
    · have hik' : i < k := by omega
      have hklen : k < cs.length := by omega
      cases hck : cs[k]? with
      | none =>
        exact absurd hck (by simp [List.getElem?_eq_getElem hklen])
      | some d =>
        simp only [hck, hmax k hik' d hck, Bool.false_eq_true, if_false]
        exact ih hik' (by omega)

theorem focusInv_addControl {s : UIState} (h : FocusInv s) (c : Control) :
    FocusInv (addControl s c) := by
  obtain ⟨h0, h1⟩ := h
  simp only [addControl, FocusInv, List.length_append, List.length_cons, List.length_nil]
  constructor
  · omega
  · intro _
    split_ifs with hcond
    · omega
    · by_cases hl : s.controls.length = 0
      · have := h0 hl
        omega
      · have := h1 hl
        omega

theorem focusInv_removeControl {s : UIState} (h : FocusInv s) (cid : Nat) :
    FocusInv (removeControl s cid) := by
  obtain ⟨h0, h1⟩ := h
  unfold removeControl
  cases hfind : s.controls.findIdx? (fun c => c.id == cid) with
  | none => exact ⟨h0, h1⟩
  | some index =>
    have hidx : index < s.controls.length :=
      (List.findIdx?_eq_some_iff_findIdx_eq.mp hfind).1
    have hlen : (s.controls.eraseIdx index).length = s.controls.length - 1 :=
      List.length_eraseIdx_of_lt hidx
    have hnonempty : s.controls.length ≠ 0 := by omega
    obtain ⟨hge, hlt⟩ := h1 hnonempty
    simp only [FocusInv, hlen]
    constructor
    · intro hz
      split_ifs with hcl <;> omega
    · intro hz
      split_ifs with hcl <;> omega

theorem focusInv_focusNext {s : UIState} (h : FocusInv s) : FocusInv (focusNext s) := by
  obtain ⟨h0, h1⟩ := h
  by_cases hl : s.controls.length = 0
  · unfold focusNext
    rw [if_pos hl]
    exact ⟨h0, h1⟩
  · obtain ⟨hge, hlt⟩ := h1 hl
    have hne : ((s.controls.length : Int)) ≠ 0 := by exact_mod_cast hl
    constructor
    · intro hz
      rw [focusNext_controls] at hz
      exact absurd hz hl
    · intro _
      rw [focusNext_controls, focusNext_focusIndex s hl,
        Int.tmod_eq_emod (by omega) (by positivity)]
      exact ⟨Int.emod_nonneg _ hne, Int.emod_lt_of_pos _ (by omega)⟩

theorem focusPrevious_controls (s : UIState) : (focusPrevious s).controls = s.controls := by
  unfold focusPrevious
  split <;> rfl

theorem focusPrevious_focusIndex (s : UIState) (h : s.controls.length ≠ 0) :
    (focusPrevious s).focusIndex =
      Int.tmod (s.focusIndex - 1 + s.controls.length) s.controls.length := by
  unfold focusPrevious
  rw [if_neg h]

theorem focusInv_focusPrevious {s : UIState} (h : FocusInv s) : FocusInv (focusPrevious s) := by
  obtain ⟨h0, h1⟩ := h
  by_cases hl : s.controls.length = 0
  · unfold focusPrevious
    rw [if_pos hl]
    exact ⟨h0, h1⟩
  · obtain ⟨hge, hlt⟩ := h1 hl
    have hne : ((s.controls.length : Int)) ≠ 0 := by exact_mod_cast hl
    constructor
    · intro hz
      rw [focusPrevious_controls] at hz
      exact absurd hz hl
    · intro _
      rw [focusPrevious_controls, focusPrevious_focusIndex s hl,
        Int.tmod_eq_emod (by omega) (by positivity)]
      exact ⟨Int.emod_nonneg _ hne, Int.emod_lt_of_pos _ (by omega)⟩

theorem focusInv_handleClick {s : UIState} (h : FocusInv s) (px py : ℚ) :
    FocusInv (handleClick s px py).1 := by
  unfold handleClick
  cases hm : s.modals.getLast? with
  | some top => exact h
  | none =>
    cases hscan : clickScan s.controls px py s.controls.length with
    | none => exact h
    | some ic =>
      obtain ⟨i, c⟩ := ic
      have hi : i < s.controls.length := (clickScan_some hscan).1
      constructor
      · intro hz
        have hz' : s.controls.length = 0 := hz
        omega
      · intro _
        have hge : (0 : Int) ≤ (i : Int) := by omega
        have hlt : ((i : Nat) : Int) < (s.controls.length : Int) := by omega
        exact ⟨hge, hlt⟩

theorem viaModal_cons_map (h : Invocation) (hh : h.viaModal = true) (l : List Nat) :
    ∀ inv ∈ h :: l.map Invocation.actionCb, inv.viaModal = true := by
  intro inv hinv
  rcases List.mem_cons.mp hinv with rfl | hmem
  · exact hh
  · obtain ⟨a, -, rfl⟩ := List.mem_map.mp hmem
    rfl

/-- C1: while the modal stack is non-empty, every key, click, and
gamepad-button event is routed to the topmost modal only: the focus
index and control list are untouched, and every recorded invocation is
a modal-layer invocation (so no Control handler and no global
`onEscape` callback ever fires). -/
theorem modal_exclusive_routing (s : UIState) (h : s.modals ≠ [])
    (e : KeyEvent) (px py : ℚ) (bi : Nat) :
    ((handleKeyDown s e).1.focusIndex = s.focusIndex ∧
     (handleKeyDown s e).1.controls = s.controls ∧
     ∀ inv ∈ (handleKeyDown s e).2, inv.viaModal = true) ∧
    ((handleClick s px py).1.focusIndex = s.focusIndex ∧
     (handleClick s px py).1.controls = s.controls ∧
     ∀ inv ∈ (handleClick s px py).2, inv.viaModal = true) ∧
    ((handleGamepadButton s bi).1.focusIndex = s.focusIndex ∧
     (handleGamepadButton s bi).1.controls = s.controls ∧
     ∀ inv ∈ (handleGamepadButton s bi).2, inv.viaModal = true) := by
  obtain ⟨top, htop⟩ : ∃ top, s.modals.getLast? = some top := by
    cases hl : s.modals.getLast? with
    | some t => exact ⟨t, rfl⟩
    | none => exact absurd (List.getLast?_eq_none_iff.mp hl) h
  refine ⟨?_, ?_, ?_⟩
  · unfold handleKeyDown
    by_cases hesc : e.key == "Escape" <;>
      simp only [hesc, if_true, if_false, Bool.false_eq_true, htop,
        UIState.applyModalResult] <;>
      exact ⟨trivial, trivial, viaModal_cons_map Invocation.modalKey rfl _⟩
  · unfold handleClick
    simp only [htop, UIState.applyModalResult]
    exact ⟨trivial, trivial, viaModal_cons_map Invocation.modalClick rfl _⟩
  · unfold handleGamepadButton
    simp only [htop, UIState.applyModalResult]
    exact ⟨trivial, trivial, viaModal_cons_map (Invocation.modalButton bi) rfl _⟩

theorem modal_exclusive_routing_witness :
    (handleKeyDown modalState escapeEvent).1.focusIndex = modalState.focusIndex ∧
    (handleClick modalState 5 5).1.focusIndex = modalState.focusIndex ∧
    (handleGamepadButton modalState 1).1.focusIndex = modalState.focusIndex :=
  ⟨(modal_exclusive_routing modalState (by simp [modalState]) escapeEvent 5 5 1).1.1,
   (modal_exclusive_routing modalState (by simp [modalState]) escapeEvent 5 5 1).2.1.1,
   (modal_exclusive_routing modalState (by simp [modalState]) escapeEvent 5 5 1).2.2.1⟩

/-- C7: with no modal active, if control `i` contains the click point
and every later-added control does not, then control `i` receives the
focus and is the only control whose click handler is invoked. -/
theorem click_hits_topmost (s : UIState) (hm : s.modals = []) (px py : ℚ)
    (i : Nat) (c : Control) (hi : s.controls[i]? = some c)
    (hc : c.containsPoint px py = true)
    (hmax : ∀ j, i < j → ∀ d, s.controls[j]? = some d →
      d.containsPoint px py = false) :
    (handleClick s px py).1.focusIndex = (i : Int) ∧
    (handleClick s px py).1.controls = s.controls ∧
    (handleClick s px py).2 =
      (if c.hasClick then [Invocation.controlClick i] else []) := by
  have hlast : s.modals.getLast? = none := by simp [hm]
  have hilen : i < s.controls.length := by
    by_contra hcon
    rw [List.getElem?_eq_none (by omega)] at hi
    exact Option.noConfusion hi
  have hscan : clickScan s.controls px py s.controls.length = some (i, c) :=
    clickScan_finds hi hc hmax s.controls.length hilen le_rfl
  unfold handleClick
  simp only [hlast, hscan]
  exact ⟨trivial, trivial, trivial⟩

theorem click_hits_topmost_witness :
    (handleClick overlapState 5 5).1.focusIndex = 1 ∧
    (handleClick overlapState 5 5).2 = [Invocation.controlClick 1] := by
  have h := click_hits_topmost overlapState rfl 5 5 1 (sampleButton 1) rfl
    (by norm_num [sampleButton, Control.containsPoint])
    (by
      intro j hj d hd
      match j, hj with
      | (n + 2), _ => simp [overlapState] at hd)
  refine ⟨h.1, ?_⟩
  rw [h.2.2]
  rfl

/-- C4: the focus-index invariant (a valid index when the control
sequence is non-empty, `-1` when it is empty) is preserved by
`addControl`, `removeControl`, `focusNext`, `focusPrevious`, and click
dispatch. -/
theorem focus_invariant_preserved (s : UIState) (h : FocusInv s) :
    (∀ c, FocusInv (addControl s c)) ∧
    (∀ cid, FocusInv (removeControl s cid)) ∧
    FocusInv (focusNext s) ∧
    FocusInv (focusPrevious s) ∧
    (∀ px py, FocusInv (handleClick s px py).1) :=
  ⟨fun c => focusInv_addControl h c, fun cid => focusInv_removeControl h cid,
   focusInv_focusNext h, focusInv_focusPrevious h,
   fun px py => focusInv_handleClick h px py⟩

theorem focus_invariant_preserved_witness :
    FocusInv (addControl threeControlState (sampleButton 3)) ∧
    FocusInv (removeControl threeControlState 2) ∧
    FocusInv (focusNext threeControlState) ∧
    FocusInv (handleClick threeControlState 5 5).1 := by
  have hinv : FocusInv threeControlState := by
    constructor <;> intro h <;> simp [threeControlState] at h ⊢
  have hall := focus_invariant_preserved threeControlState hinv
  exact ⟨hall.1 (sampleButton 3), hall.2.1 2, hall.2.2.1, hall.2.2.2.2 5 5⟩

theorem applyInput_fields (s : Slider) (i : SliderInput) :
    (s.applyInput i).min = s.min ∧ (s.applyInput i).max = s.max ∧
    (s.applyInput i).step = s.step := by
  rcases i with k | d <;>
    simp only [Slider.applyInput, Slider.handleKeyDown, Slider.handleGamepadAxis] <;>
    split_ifs <;> exact ⟨rfl, rfl, rfl⟩

theorem sliderInv_left {s : Slider} (hstep : 0 < s.step) (hinv : SliderInv s) :
    SliderInv { s with value := Max.max s.min (s.value - s.step) } := by
  obtain ⟨h1, h2, k, hk⟩ := hinv
  refine ⟨?_, ?_, ?_⟩
  · show s.min ≤ Max.max s.min (s.value - s.step)
    exact le_max_left _ _
  · show Max.max s.min (s.value - s.step) ≤ s.max
    exact max_le (h1.trans h2) (by linarith)
  · show stepAligned (Max.max s.min (s.value - s.step) - s.min) s.step
    rcases le_total (s.value - s.step) s.min with hle | hge
    · refine ⟨0, ?_⟩
      rw [max_eq_left hle]
      push_cast
      ring
    · refine ⟨k - 1, ?_⟩
      rw [max_eq_right hge]
      push_cast
      linarith

theorem sliderInv_right {s : Slider} (hstep : 0 < s.step)
    (hspan : stepAligned (s.max - s.min) s.step) (hinv : SliderInv s) :
    SliderInv { s with value := Min.min s.max (s.value + s.step) } := by
  obtain ⟨h1, h2, k, hk⟩ := hinv
  obtain ⟨m, hm⟩ := hspan
  refine ⟨?_, ?_, ?_⟩
  · show s.min ≤ Min.min s.max (s.value + s.step)
    exact le_min (h1.trans h2) (by linarith)
  · show Min.min s.max (s.value + s.step) ≤ s.max
    exact min_le_left _ _
  · show stepAligned (Min.min s.max (s.value + s.step) - s.min) s.step
    rcases le_total (s.value + s.step) s.max with hle | hge
    · refine ⟨k + 1, ?_⟩
      rw [min_eq_right hle]
      push_cast
      linarith
    · refine ⟨m, ?_⟩
      rw [min_eq_left hge]
      exact hm

theorem applyInput_inv {s : Slider} (hstep : 0 < s.step)
    (hspan : stepAligned (s.max - s.min) s.step) (hinv : SliderInv s)
    (i : SliderInput) : SliderInv (s.applyInput i) := by
  rcases i with k | d
  · show SliderInv (s.handleKeyDown k)
    unfold Slider.handleKeyDown
    split_ifs with h1 h2
    · exact sliderInv_left hstep hinv
    · exact sliderInv_right hstep hspan hinv
    · exact hinv
  · show SliderInv (s.handleGamepadAxis d)
    unfold Slider.handleGamepadAxis
    split_ifs with h1
    · exact sliderInv_left hstep hinv
    · exact sliderInv_right hstep hspan hinv

/-- C2 (amended): for a slider whose starting value is in range and
step-aligned relative to `min`, whose step is positive, and whose span
`max - min` is itself a multiple of `step`, every sequence of
directional-adjust inputs keeps the value in `[min, max]` and
step-aligned relative to `min`. -/
theorem slider_adjust_invariant (s : Slider) (inputs : List SliderInput)
    (hstep : 0 < s.step) (hspan : stepAligned (s.max - s.min) s.step)
    (hinv : SliderInv s) :
    SliderInv (inputs.foldl Slider.applyInput s) := by
  induction inputs generalizing s with
  | nil => exact hinv
  | cons i rest ih =>
    simp only [List.foldl_cons]
    obtain ⟨hmin, hmax, hstep2⟩ := applyInput_fields s i
    exact ih (s.applyInput i) (by rw [hstep2]; exact hstep)
      (by rw [hmin, hmax, hstep2]; exact hspan)
      (applyInput_inv hstep hspan hinv i)

theorem slider_adjust_invariant_witness :
    SliderInv (([SliderInput.keyInput "ArrowLeft", SliderInput.axisInput 1]).foldl
      Slider.applyInput scenarioSlider) :=
  slider_adjust_invariant scenarioSlider _ (by norm_num [scenarioSlider])
    ⟨20, by norm_num [scenarioSlider]⟩
    ⟨by norm_num [scenarioSlider], by norm_num [scenarioSlider],
     ⟨10, by norm_num [scenarioSlider]⟩⟩

/-- C2 (counterexample): in a slider with `min=0, max=10, step=3` and
step-aligned starting value 0, four increments end at value 10, which
is not a multiple of the step: the claimed alignment invariant fails on
the code. -/
theorem slider_adjust_misaligned :
    (c2Inputs.foldl Slider.applyInput c2Slider).value = 10 ∧
    ¬ stepAligned ((c2Inputs.foldl Slider.applyInput c2Slider).value - c2Slider.min)
      c2Slider.step := by
  have hv : (c2Inputs.foldl Slider.applyInput c2Slider).value = 10 := by
    norm_num [c2Inputs, c2Slider, Slider.applyInput, Slider.handleGamepadAxis,
      List.foldl_cons, List.foldl_nil, min_def, max_def]
  refine ⟨hv, ?_⟩
  rw [hv]
  rintro ⟨k, hk⟩
  norm_num [c2Slider] at hk
  have hk2 : (10 : ℤ) = k * 3 := by exact_mod_cast hk
  omega

/-- C3 (amended): the value resulting from a click on the slider track
is the raw track value `min + percent * (max - min)` rounded to the
nearest absolute multiple of `step`, then clamped to `[min, max]` (the
quantization is not offset by `min`). -/
theorem slider_click_value (s : Slider) (x : ℚ) (hstep : s.step ≠ 0)
    (hw : s.width - s.padding * 2 ≠ 0) :
    (s.updateValueFromX x).value = sliderClickAmendedValue s x := by
  simp only [Slider.updateValueFromX, sliderClickAmendedValue]
  split_ifs with h
  · rfl
  · push_neg at h
    exact h.symm

theorem slider_click_value_witness :
    (c3Slider.updateValueFromX 10).value = sliderClickAmendedValue c3Slider 10 :=
  slider_click_value c3Slider 10 (by norm_num [c3Slider]) (by norm_num [c3Slider])

/-- C3 (counterexample): for the slider with `min=1, max=11, step=2`, a
click at the left end of the track stores value 2 (nearest absolute
multiple of the step), while the spec's formula
`round((raw-min)/step)*step + min` yields 1. -/
theorem slider_click_spec_mismatch :
    (c3Slider.updateValueFromX 10).value = 2 ∧
    sliderClickSpecValue c3Slider 10 = 1 := by
  constructor
  · norm_num [c3Slider, Slider.updateValueFromX, min_def, max_def, round_eq]
  · norm_num [c3Slider, sliderClickSpecValue, min_def, max_def, round_eq]

/-- C8: pressing Escape on a modal closes it, leaves its own state
unchanged, and invokes exactly the callback of the first action whose
label matches exit/close/cancel case-insensitively (and no callback
when no action matches, or the matching action has none). -/
theorem modal_escape_semantics (m : Modal) :
    ((m.handleKeyDown escapeEvent).closed = true ∧
     (m.handleKeyDown escapeEvent).modal = m ∧
     (m.handleKeyDown escapeEvent).invoked =
       (match m.buttons.find? isCancelLike with
        | some b => b.callback.toList
        | none => [])) ∧
    (∀ s : UIState, s.modals.getLast? = some m →
      (handleKeyDown s escapeEvent).1.modals = s.modals.dropLast) := by
  constructor
  · simp [Modal.handleKeyDown, escapeEvent]
  · intro s hs
    unfold handleKeyDown
    simp [hs, UIState.applyModalResult, Modal.handleKeyDown, escapeEvent]

theorem modal_escape_semantics_witness :
    (sampleModal.handleKeyDown escapeEvent).closed = true ∧
    (handleKeyDown modalState escapeEvent).1.modals = modalState.modals.dropLast :=
  ⟨(modal_escape_semantics sampleModal).1.1,
   (modal_escape_semantics sampleModal).2 modalState (by simp [modalState])⟩

theorem eraseP_id_of_nodup (mid : Nat) :
    ∀ (l : List Modal), (l.map Modal.id).Nodup →
      (l.eraseP (fun m => m.id == mid)).eraseP (fun m => m.id == mid) =
        l.eraseP (fun m => m.id == mid) := by
  intro l hl
  induction l with
  | nil => rfl
  | cons a t ih =>
    rw [List.map_cons, List.nodup_cons] at hl
    obtain ⟨hna, hnt⟩ := hl
    by_cases ha : a.id = mid
    · rw [List.eraseP_cons_of_pos (by simp [ha])]
      apply List.eraseP_of_forall_not
      intro b hb
      simp only [beq_iff_eq]
      intro hb2
      have hmem : b.id ∈ t.map Modal.id := List.mem_map_of_mem Modal.id hb
      rw [hb2, ← ha] at hmem
      exact hna hmem
    · have hfalse : (a.id == mid) = false := by simp [ha]
      simp only [List.eraseP_cons, hfalse, cond_false, ih hnt]

/-- C9: `closeModal` removes the modal only when it is present, so with
the distinct modal identities the coordinator maintains (each modal
object is pushed exactly once by `showModal`), closing the same modal a
second time leaves the coordinator state unchanged. -/
theorem closeModal_idempotent (s : UIState) (mid : Nat)
    (h : (s.modals.map Modal.id).Nodup) :
    closeModal (closeModal s mid) mid = closeModal s mid := by
  unfold closeModal
  dsimp only
  rw [eraseP_id_of_nodup mid s.modals h]

theorem closeModal_idempotent_witness :
    closeModal (closeModal twoModalState 5) 5 = closeModal twoModalState 5 :=
  closeModal_idempotent twoModalState 5
    (by simp [twoModalState, threeControlState, sampleModal, sampleModal2])

/-- C10: the cursor invariant `0 ≤ cursorPos ≤ value.length` holds for
a freshly constructed text input and is preserved by every key event
(Backspace, Delete, arrows, Home, End, printable insertion, other keys)
and by every click. -/
theorem textInput_cursor_invariant (t : TextInput) (h : TextInputInv t) :
    (∀ e, TextInputInv (t.handleKeyDown e)) ∧
    (∀ px py, TextInputInv (t.handleClick px py)) ∧
    (∀ x y w hgt ph, TextInputInv (TextInput.make x y w hgt ph)) := by
  obtain ⟨h0, h1⟩ := h
  refine ⟨?_, ?_, ?_⟩
  · intro e
    unfold TextInput.handleKeyDown
    split_ifs with hb hbp hd hdp hl hr hh he hc <;>
      simp only [TextInputInv, List.length_append, List.length_take,
        List.length_drop] <;>
      first
      | (constructor <;> omega)
      | (have hc1 : e.key.length = 1 := by
          simp only [Bool.and_eq_true, beq_iff_eq] at hc
          exact hc.1.1
         have hdata : e.key.data.length = 1 := hc1
         constructor <;> omega)
  · intro px py
    exact ⟨Int.natCast_nonneg _, le_refl _⟩
  · intro x y w hgt ph
    exact ⟨le_refl 0, by norm_num [TextInput.make]⟩

theorem textInput_cursor_invariant_witness :
    TextInputInv (sampleTextInput.handleKeyDown plainKeyEvent) ∧
    TextInputInv (sampleTextInput.handleClick 5 5) := by
  have h : TextInputInv sampleTextInput := by
    constructor <;> norm_num [sampleTextInput, TextInput.make]
  have hall := textInput_cursor_invariant sampleTextInput h
  exact ⟨hall.1 plainKeyEvent, hall.2.1 5 5⟩

theorem focusNext_cycle_witness :
    (focusNext^[threeControlState.controls.length] threeControlState).focusIndex =
      threeControlState.focusIndex :=
  focusNext_cycle threeControlState (by simp [threeControlState]) (by norm_num [threeControlState])
    (by norm_num [threeControlState])

end CanvasUIMark
